import Mathlib

/-!
Verification development for the `Trainer` class of
`src/src/main/python/deep_qa/training/trainer.py`.

The development is a shallow embedding of the training orchestrator:
* pure Python values become Lean values (floats of the metric history are
  modelled as rationals, opaque tensors/datasets as natural-number handles);
* the collaborator hooks that the base class defers to subclasses
  (`_load_dataset_from_files`, `_prepare_data`, `_build_model`, `model.fit`,
  ...) become an explicit environment record `TrainEnv`;
* Python exceptions become an `Except PyError` result;
* file I/O (checkpoint writes, `shutil.copyfile`) becomes an explicit
  file-system map from structured paths to weight blobs;
* the observable events of one `train()` call (epochs fitted, epochs
  checkpointed, epochs for which a debug report was emitted, the keyword
  arguments of each `fit` call) are recorded as traces in the loop state.
-/

namespace DeepQA

/-- Python exception classes that the code under `trainer.py` can raise on the
modelled paths. -/
inductive PyError
  | configurationError
  | typeError
  | keyError
  | indexError
  | fileNotFoundError
  | notImplementedError
deriving DecidableEq, Repr

/-- Rational literal 1/2 (the float `0.5` of the spec examples), given in
normal form so that kernel reduction never needs `Nat.gcd`. -/
def half : ℚ := ⟨1, 2, by norm_num, by norm_num⟩

/-- Rational literal 2/5 (the float `0.4` of the spec examples). -/
def twoFifths : ℚ := ⟨2, 5, by norm_num, by norm_num⟩

/-- Rational literal 3/10 (the float `0.3` of the spec examples). -/
def threeTenths : ℚ := ⟨3, 10, by norm_num, by norm_num⟩

/-- Rational literal 1/10 (the float `0.1`, default of `keras_validation_split`). -/
def tenth : ℚ := ⟨1, 10, by norm_num, by norm_num⟩

/-- The `data` entry of the `debug` parameter dict: `"training"`,
`"validation"`, or a list of file names (trainer.py lines 74-84, 251-264). -/
inductive DebugData
  | training
  | validation
  | files (fls : List String)
deriving DecidableEq

/-- The `debug` parameter dict: required key `layer_names`, optional key
`masks` (default `[]`), required key `data` (trainer.py lines 74-84). -/
structure DebugParams where
  layer_names : List String
  masks : List String := []
  data : DebugData
deriving DecidableEq

/-- The member variables that `Trainer.__init__` (trainer.py lines 30-114)
derives from its `params` dict.  `model_pfx` embeds the source's
`model_serialization_prefix` / `self.model_prefix` attribute. -/
structure TrainerConfig where
  save_models : Bool
  model_pfx : Option String
  max_training_instances : Option Nat
  keras_validation_split : ℚ
  num_epochs : Nat
  patience : Nat
  train_files : Option (List String)
  validation_files : Option (List String)
  optimizer : String
  loss : String
  metrics : List String
  validation_metric : String
  show_summary_with_masking : Bool
  debug_params : Option DebugParams
  pretrainers : List String

/-- The `params` dict handed to `Trainer.__init__`: one optional entry per
recognized key (`none` means the key is absent, so `params.pop` returns its
default), plus the list of unrecognized keys that remain after all pops. -/
structure Params where
  save_models : Option Bool := none
  serialization_pfx : Option String := none
  max_training_instances : Option Nat := none
  keras_validation_split : Option ℚ := none
  num_epochs : Option Nat := none
  patience : Option Nat := none
  train_files : Option (List String) := none
  validation_files : Option (List String) := none
  optimizer : Option String := none
  loss : Option String := none
  metrics : Option (List String) := none
  validation_metric : Option String := none
  show_summary_with_masking_info : Option Bool := none
  debug : Option DebugParams := none
  pretrainers : Option (List String) := none
  extra_keys : List String := []

/-- Embedding of `Trainer.__init__` (trainer.py lines 30-114).  Every
`params.pop(key, default)` becomes a `getD` with the source's default; the
only `raise` on this path is the unrecognized-parameter check of lines 95-96.
Notably there is no consistency check between `save_models` and
`model_serialization_prefix`: the constructor accepts `save_models=True`
with no prefix (the docstring of lines 33-34 only warns of a later crash). -/
def trainerInit (p : Params) : Except PyError TrainerConfig :=
  let cfg : TrainerConfig :=
    { save_models := p.save_models.getD true
      model_pfx := p.serialization_pfx
      max_training_instances := p.max_training_instances
      keras_validation_split := p.keras_validation_split.getD tenth
      num_epochs := p.num_epochs.getD 20
      patience := p.patience.getD 1
      train_files := p.train_files
      validation_files := p.validation_files
      optimizer := p.optimizer.getD ("adam")
      loss := p.loss.getD ("categorical_crossentropy")
      metrics := p.metrics.getD [("accuracy")]
      validation_metric := p.validation_metric.getD ("val_acc")
      show_summary_with_masking := p.show_summary_with_masking_info.getD false
      debug_params := p.debug
      pretrainers := p.pretrainers.getD [] }
  if p.extra_keys.length ≠ 0 then Except.error PyError.configurationError
  else Except.ok cfg

/-- Embedding of `Trainer.can_train` (trainer.py lines 116-117):
`self.train_files is not None`. -/
def can_train (cfg : TrainerConfig) : Bool :=
  cfg.train_files.isSome

/-- Python's `"%s" % prefix` rendering used in every file-name format string:
a missing (`None`) prefix is rendered as the string `"None"`. -/
def pfxStr : Option String → String
  | none => "None"
  | some s => s

/-- Structured checkpoint paths.  Each constructor stands for one of the
distinct format strings of trainer.py: `"%s_config.json"`,
`"%s_weights_epoch=%d.h5"`, `"%s_weights.h5"`; distinct constructors model
that these format strings (with the decimal rendering of the epoch, which is
injective) never produce the same file name. -/
inductive FsPath
  | config (p : String)
  | weightsEpoch (p : String) (epoch : Nat)
  | weightsFinal (p : String)
deriving DecidableEq

/-- The file system: a map from paths to weight/JSON blobs (opaque `Nat`). -/
def FS : Type := FsPath → Option Nat

/-- The empty file system. -/
def fsEmpty : FS := fun _ => none

/-- Writing one file. -/
def fsUpdate (fs : FS) (p : FsPath) (b : Nat) : FS :=
  fun q => if q = p then some b else fs q

/-- A layer of the built Keras model: its `layer.name` and an opaque handle
for `layer.get_output_at(0)`. -/
structure Layer where
  name : String
  out : Nat
deriving DecidableEq

/-- A tensor appearing among the debug model's outputs: either a layer's
output (`layer.get_output_at(0)`) or the `OutputMask()` application to it
(trainer.py lines 373, 376). -/
inductive DTensor
  | raw (t : Nat)
  | masked (t : Nat)
deriving DecidableEq

/-- The `debug_output_dict` of `_build_debug_model`: a single Python dict
keyed by strings (so a layer name can collide with a `"mask_for_" + name`
key). -/
def DebugDict : Type := String → Option DTensor

/-- Insertion into the debug dict (`debug_output_dict[key] = value`). -/
def dictInsert (d : DebugDict) (k : String) (v : DTensor) : DebugDict :=
  fun q => if q = k then some v else d q

/-- The body of the `for layer in self.model.layers` loop of
`_build_debug_model` (trainer.py lines 371-378): when the layer's name is in
the layer-name set, store its output and remove the name; independently,
when it is in the mask set, store its `OutputMask` under the
`'mask_for_' + layer.name` key and remove the name. -/
def layerStep (l : Layer) (lns mns : List String) (dict : DebugDict) :
    List String × List String × DebugDict :=
  let p1 : List String × DebugDict :=
    if l.name ∈ lns then (lns.erase l.name, dictInsert dict l.name (DTensor.raw l.out))
    else (lns, dict)
  let p2 : List String × DebugDict :=
    if l.name ∈ mns then
      (mns.erase l.name, dictInsert p1.2 ("mask_for_" ++ l.name) (DTensor.masked l.out))
    else (mns, p1.2)
  (p1.1, p2.1, p2.2)

/-- The whole layer loop of `_build_debug_model`.  `lns` and `mns` are the
Python sets `set(debug_layer_names)` and `set(debug_masks)` (modelled as
deduplicated lists). -/
def buildLoop : List Layer → List String → List String → DebugDict →
    List String × List String × DebugDict
  | [], lns, mns, dict => (lns, mns, dict)
  | l :: rest, lns, mns, dict =>
    let r := layerStep l lns mns dict
    buildLoop rest r.1 r.2.1 r.2.2

/-- Looking up a list of keys in the debug dict; a missing key is Python's
`KeyError` on `debug_output_dict[name]`. -/
def lookupAll (dict : DebugDict) : List String → Option (List DTensor)
  | [] => some []
  | n :: ns =>
    match dict n, lookupAll dict ns with
    | some t, some ts => some (t :: ts)
    | _, _ => none

/-- Embedding of `Trainer._build_debug_model` (trainer.py lines 356-385),
returning the debug model's output list.  When some requested name never
matches a layer, line 380 evaluates `layer_names + mask_names` on two Python
`set` objects while building the `ConfigurationError` message; `set + set`
is unsupported, so the raise that actually happens is a `TypeError`. -/
def build_debug_model (layers : List Layer) (debug_layer_names debug_masks : List String) :
    Except PyError (List DTensor) :=
  let r := buildLoop layers debug_layer_names.dedup debug_masks.dedup (fun _ => none)
  if r.1.length ≠ 0 ∨ r.2.1.length ≠ 0 then
    Except.error PyError.typeError
  else
    match lookupAll r.2.2 debug_layer_names,
          lookupAll r.2.2 (debug_masks.map (fun n => "mask_for_" ++ n)) with
    | some outs1, some outs2 => Except.ok (outs1 ++ outs2)
    | _, _ => Except.error PyError.keyError

/-- The output of `self.model.layers`'s first layer named `n` (`0` when no
layer matches; only used under a hypothesis that a match exists). -/
def layerOut (layers : List Layer) (n : String) : Nat :=
  match layers.find? (fun l => l.name == n) with
  | some l => l.out
  | none => 0

/-- The keyword arguments passed to `self.model.fit` in each iteration of
the epoch loop (trainer.py lines 276-284). -/
structure FitKwargs where
  nb_epoch : Nat
  validation_data : Option (Nat × Nat)
  validation_split : Option ℚ
deriving DecidableEq

/-- Building the fit kwargs: always `nb_epoch=1`; explicit validation data
when present, else `validation_split` when `self.keras_validation_split`
is strictly positive, else neither (trainer.py lines 276-283). -/
def fitKwargs (cfg : TrainerConfig) (vdata : Option (Nat × Nat)) : FitKwargs :=
  match vdata with
  | some v => { nb_epoch := 1, validation_data := some v, validation_split := none }
  | none =>
    if 0 < cfg.keras_validation_split then
      { nb_epoch := 1, validation_data := none, validation_split := some cfg.keras_validation_split }
    else
      { nb_epoch := 1, validation_data := none, validation_split := none }

/-- The collaborators the base class defers to: the abstract dataset hooks,
the built model's layers, and the outcome of each epoch's `fit` call.
`history e` is the `history.history` dict after fitting epoch `e` (a map
from metric name to the list of its values), and `fitWeights e` is the
weight blob the model would serialize right after epoch `e`. -/
structure TrainEnv where
  loadDataset : Option (List String) → Except PyError Nat
  truncate : Nat → Nat → Nat
  prepareData : Nat → Bool → Except PyError (Nat × Nat)
  modelLayers : List Layer
  modelJson : Nat
  history : Nat → String → Option (List ℚ)
  fitWeights : Nat → Nat

/-- Mutable state of the epoch loop of `Trainer.train` (trainer.py lines
270-299), extended with the event traces that make the loop's behaviour
observable: the epochs fitted, the epochs checkpointed, the epochs for which
a debug report was written, the kwargs of every `fit` call, and the epoch at
which the patience break fired (if any). -/
structure LoopState where
  best_accuracy : ℚ
  best_epoch : Nat
  num_worse_epochs : Nat
  epochs_run : List Nat
  debug_epochs : List Nat
  saved_epochs : List Nat
  fit_calls : List FitKwargs
  stopped_at : Option Nat
  fs : FS

/-- The state at entry of the epoch loop: `best_accuracy = 0.0`,
`self.best_epoch = 0`, `num_worse_epochs = 0` (trainer.py lines 270-272),
with empty traces over the ambient file system. -/
def initLoopState (fs0 : FS) : LoopState :=
  { best_accuracy := 0
    best_epoch := 0
    num_worse_epochs := 0
    epochs_run := []
    debug_epochs := []
    saved_epochs := []
    fit_calls := []
    stopped_at := none
    fs := fs0 }

/-- Embedding of `Trainer._save_model(epoch)` (trainer.py lines 468-477):
write `"%s_config.json"` and `"%s_weights_epoch=%d.h5"` under the rendered
prefix, and record the checkpointed epoch. -/
def saveModelStep (cfg : TrainerConfig) (env : TrainEnv) (epoch : Nat) (s : LoopState) :
    LoopState :=
  let p := pfxStr cfg.model_pfx
  { s with
    fs := fsUpdate (fsUpdate s.fs (FsPath.config p) env.modelJson)
            (FsPath.weightsEpoch p epoch) (env.fitWeights epoch)
    saved_epochs := s.saved_epochs ++ [epoch] }

/-- The early-stopping decision of one epoch (trainer.py lines 286-297):
compare the metric's latest value to `best_accuracy`; a strictly smaller
value increments `num_worse_epochs` and breaks when the counter reaches
`patience`; otherwise the epoch counts as an improvement (ties included),
updating the best bookkeeping and checkpointing when `save_models`.
The returned `Bool` is the `break` of line 291. -/
def earlyStopStep (cfg : TrainerConfig) (env : TrainEnv) (acc : ℚ) (epoch_id : Nat)
    (s : LoopState) : LoopState × Bool :=
  if acc < s.best_accuracy then
    ({ s with num_worse_epochs := s.num_worse_epochs + 1 },
     decide (cfg.patience ≤ s.num_worse_epochs + 1))
  else
    ((if cfg.save_models then
        saveModelStep cfg env epoch_id
          { s with best_accuracy := acc, best_epoch := epoch_id, num_worse_epochs := 0 }
      else { s with best_accuracy := acc, best_epoch := epoch_id, num_worse_epochs := 0 }),
     false)

/-- Reading `history.history[self.validation_metric][-1]` (trainer.py line
286): a missing dict key is a `KeyError`, `[-1]` on an empty list an
`IndexError`. -/
def getAccuracy (env : TrainEnv) (cfg : TrainerConfig) (e : Nat) : Except PyError ℚ :=
  match env.history e cfg.validation_metric with
  | none => Except.error PyError.keyError
  | some vals =>
    match vals.getLast? with
    | none => Except.error PyError.indexError
    | some a => Except.ok a

/-- One iteration of the epoch loop (trainer.py lines 274-299): the
`_pre_epoch_hook` (a `pass`), the `fit` call with its kwargs, the
`_post_epoch_hook` (a `pass`), the early-stopping decision, and — only
when the break did not fire — the debug report of lines 298-299. -/
def epochBody (cfg : TrainerConfig) (env : TrainEnv) (vdata : Option (Nat × Nat))
    (e : Nat) (s : LoopState) : Except PyError (LoopState × Bool) := do
  let k := fitKwargs cfg vdata
  let s := { s with epochs_run := s.epochs_run ++ [e], fit_calls := s.fit_calls ++ [k] }
  let acc ← getAccuracy env cfg e
  let r := earlyStopStep cfg env acc e s
  if r.2 then
    pure ({ r.1 with stopped_at := some e }, true)
  else
    let s2 :=
      if cfg.debug_params.isSome then { r.1 with debug_epochs := r.1.debug_epochs ++ [e] }
      else r.1
    pure (s2, false)

/-- The `for epoch_id in range(self.num_epochs)` loop (trainer.py line 273),
by recursion on the number of remaining epochs; `e` is the next epoch id. -/
def trainLoop (cfg : TrainerConfig) (env : TrainEnv) (vdata : Option (Nat × Nat)) :
    Nat → Nat → LoopState → Except PyError LoopState
  | 0, _, s => pure s
  | fuel + 1, e, s => do
    let r ← epochBody cfg env vdata e s
    if r.2 then pure r.1 else trainLoop cfg env vdata fuel (e + 1) r.1

/-- Loading and preparing the explicit validation data when
`validation_files` is configured (trainer.py lines 228-232). -/
def getVData (cfg : TrainerConfig) (env : TrainEnv) : Except PyError (Option (Nat × Nat)) :=
  match cfg.validation_files with
  | some vf => do
    let vds ← env.loadDataset (some vf)
    let vio ← env.prepareData vds false
    pure (some vio)
  | none => pure none

/-- The debug setup of trainer.py lines 246-266: resolve the debug data
source (a fresh load for an explicit file list) and build the debug model
before the epoch loop starts. -/
def debugSetup (cfg : TrainerConfig) (env : TrainEnv) : Except PyError Unit :=
  match cfg.debug_params with
  | none => pure ()
  | some dp => do
    let _ ← (match dp.data with
      | DebugData.files fls => do
        let dds ← env.loadDataset (some fls)
        let _ ← env.prepareData dds false
        pure ()
      | _ => pure ())
    let _ ← build_debug_model env.modelLayers dp.layer_names dp.masks
    pure ()

/-- Everything `Trainer.train` does before the epoch loop (trainer.py lines
212-266): load the training dataset from `self.train_files` (with no
missing-file-set check: a `None` value is handed to the loader as is),
truncate when `max_training_instances` is set, prepare the train tensors,
load and prepare the explicit validation data, and run the debug setup.
Returns the validation-data pair used by every `fit` call.  The pretraining
hooks and `_build_model`/`summary`/`compile` calls are collaborator calls
that do not touch the modelled state. -/
def setupPhase (cfg : TrainerConfig) (env : TrainEnv) : Except PyError (Option (Nat × Nat)) := do
  let ds ← env.loadDataset cfg.train_files
  let ds :=
    match cfg.max_training_instances with
    | some n => env.truncate ds n
    | none => ds
  let _ ← env.prepareData ds true
  let vdata ← getVData cfg env
  let _ ← debugSetup cfg env
  pure vdata

/-- Embedding of `Trainer._save_best_model` (trainer.py lines 479-491):
`shutil.copyfile` from `"%s_weights_epoch=%d.h5" % (prefix, best_epoch)` to
`"%s_weights.h5" % prefix`; a missing source file is a `FileNotFoundError`. -/
def saveBestModel (cfg : TrainerConfig) (fs : FS) (best : Nat) : Except PyError FS :=
  match fs (FsPath.weightsEpoch (pfxStr cfg.model_pfx) best) with
  | none => Except.error PyError.fileNotFoundError
  | some blob => Except.ok (fsUpdate fs (FsPath.weightsFinal (pfxStr cfg.model_pfx)) blob)

/-- The observable outcome of a completed `train()` call. -/
structure TrainResult where
  best_epoch : Nat
  best_accuracy : ℚ
  epochs_run : List Nat
  debug_epochs : List Nat
  saved_epochs : List Nat
  fit_calls : List FitKwargs
  stopped_at : Option Nat
  validation_data : Option (Nat × Nat)
  fs : FS

/-- Assembling the result record from the loop-exit state and the final
file system. -/
def mkResult (vdata : Option (Nat × Nat)) (s : LoopState) (fsF : FS) : TrainResult :=
  { best_epoch := s.best_epoch
    best_accuracy := s.best_accuracy
    epochs_run := s.epochs_run
    debug_epochs := s.debug_epochs
    saved_epochs := s.saved_epochs
    fit_calls := s.fit_calls
    stopped_at := s.stopped_at
    validation_data := vdata
    fs := fsF }

/-- Embedding of `Trainer.train` (trainer.py lines 205-301): the setup
phase, the epoch loop starting from the freshly initialized loop state, and
— when `save_models` — the final best-checkpoint copy after the loop. -/
def train (cfg : TrainerConfig) (env : TrainEnv) (fs0 : FS) : Except PyError TrainResult := do
  let vdata ← setupPhase cfg env
  let sEnd ← trainLoop cfg env vdata cfg.num_epochs 0 (initLoopState fs0)
  let fsF ← (if cfg.save_models then saveBestModel cfg sEnd.fs sEnd.best_epoch else pure sEnd.fs)
  pure (mkResult vdata sEnd fsF)

/-! General lemmas about the embedded operations. -/

theorem str_data_append (s t : String) : (s ++ t).data = s.data ++ t.data := rfl

theorem string_ext {s t : String} (h : s.data = t.data) : s = t := by
  cases s; cases t; exact congrArg String.mk h

theorem maskKey_inj {m n : String} (h : "mask_for_" ++ m = "mask_for_" ++ n) : m = n := by
  have hd := congrArg String.data h
  rw [str_data_append, str_data_append] at hd
  exact string_ext (List.append_cancel_left hd)

theorem maskKey_ne (s : String) : "mask_for_" ++ s ≠ s := by
  intro h
  have h2 : ("mask_for_".data ++ s.data).length = s.data.length := by
    have := congrArg String.data h
    rw [str_data_append] at this
    exact congrArg List.length this
  rw [List.length_append] at h2
  have h3 : ("mask_for_" : String).data.length = 9 := rfl
  omega

theorem layerStep_lns (l : Layer) (lns mns : List String) (d : DebugDict) :
    (layerStep l lns mns d).1 = if l.name ∈ lns then lns.erase l.name else lns := by
  simp only [layerStep]
  split <;> rfl

theorem layerStep_mns (l : Layer) (lns mns : List String) (d : DebugDict) :
    (layerStep l lns mns d).2.1 = if l.name ∈ mns then mns.erase l.name else mns := by
  simp only [layerStep]
  split <;> split <;> rfl

theorem layerStep_dict (l : Layer) (lns mns : List String) (d : DebugDict) (k : String) :
    (layerStep l lns mns d).2.2 k =
      if l.name ∈ mns ∧ k = "mask_for_" ++ l.name then some (DTensor.masked l.out)
      else if l.name ∈ lns ∧ k = l.name then some (DTensor.raw l.out)
      else d k := by
  have hne : l.name ≠ "mask_for_" ++ l.name := Ne.symm (maskKey_ne l.name)
  by_cases h1 : l.name ∈ lns <;> by_cases h2 : l.name ∈ mns <;>
    simp only [layerStep, dictInsert, h1, h2, ite_true, ite_false, true_and, false_and,
      if_false] <;>
    split_ifs <;> simp_all

theorem buildLoop_cons (l : Layer) (rest : List Layer) (lns mns : List String) (d : DebugDict) :
    buildLoop (l :: rest) lns mns d =
      buildLoop rest (layerStep l lns mns d).1 (layerStep l lns mns d).2.1
        (layerStep l lns mns d).2.2 := rfl

theorem buildLoop_dict_unchanged (layers : List Layer) :
    ∀ (lns mns : List String) (d : DebugDict) (k : String),
      (∀ a ∈ lns, a ≠ k) → (∀ m ∈ mns, "mask_for_" ++ m ≠ k) →
      (buildLoop layers lns mns d).2.2 k = d k := by
  induction layers with
  | nil => intro lns mns d k _ _; rfl
  | cons l rest ih =>
    intro lns mns d k hl hm
    rw [buildLoop_cons]
    have hd := layerStep_dict l lns mns d k
    have hstep : (layerStep l lns mns d).2.2 k = d k := by
      rw [hd]
      split_ifs with c1 c2
      · exact absurd c1.2.symm (hm l.name c1.1)
      · exact absurd c2.2.symm (hl l.name c2.1)
      · rfl
    rw [ih _ _ _ k ?_ ?_, hstep]
    · intro a ha
      apply hl a
      rw [layerStep_lns] at ha
      split at ha
      · exact List.mem_of_mem_erase ha
      · exact ha
    · intro m hm2
      apply hm m
      rw [layerStep_mns] at hm2
      split at hm2
      · exact List.mem_of_mem_erase hm2
      · exact hm2

theorem buildLoop_dict_raw (layers : List Layer) :
    ∀ (lns mns : List String) (d : DebugDict) (n : String),
      n ∈ lns → lns.Nodup → (∀ m ∈ mns, "mask_for_" ++ m ≠ n) →
      (buildLoop layers lns mns d).2.2 n =
        (match layers.find? (fun l => l.name == n) with
         | some l => some (DTensor.raw l.out)
         | none => d n) := by
  induction layers with
  | nil => intro lns mns d n _ _ _; rfl
  | cons l rest ih =>
    intro lns mns d n hn hnd hm
    rw [buildLoop_cons]
    by_cases hln : l.name = n
    · -- this layer matches: the dict gets the raw output, n leaves the set,
      -- and no later write can touch key n
      have hfind : (l :: rest).find? (fun l => l.name == n) = some l := by
        simp [List.find?_cons_of_pos, hln]
      rw [hfind]
      have hstep : (layerStep l lns mns d).2.2 n = some (DTensor.raw l.out) := by
        rw [layerStep_dict]
        split_ifs with c1 c2
        · exact absurd (hln ▸ c1.2.symm : "mask_for_" ++ l.name = l.name) (maskKey_ne l.name)
        · rfl
        · exact absurd ⟨hln ▸ hn, hln.symm⟩ c2
      rw [buildLoop_dict_unchanged rest _ _ _ n ?_ ?_, hstep]
      · intro a ha
        rw [layerStep_lns] at ha
        rw [if_pos (hln ▸ hn : l.name ∈ lns)] at ha
        intro hak
        rw [hak, ← hln] at ha
        exact (List.Nodup.mem_erase_iff hnd).mp ha |>.1 rfl
      · intro m hm2
        apply hm m
        rw [layerStep_mns] at hm2
        split at hm2
        · exact List.mem_of_mem_erase hm2
        · exact hm2
    · -- this layer does not match: key n is untouched and n stays in the set
      have hfind : (l :: rest).find? (fun l => l.name == n) = rest.find? (fun l => l.name == n) := by
        simp [List.find?_cons_of_neg, hln]
      rw [hfind]
      have hstep : (layerStep l lns mns d).2.2 n = d n := by
        rw [layerStep_dict]
        split_ifs with c1 c2
        · exact absurd c1.2.symm (hm l.name c1.1)
        · exact absurd c2.2.symm hln
        · rfl
      rw [ih _ _ _ n ?_ ?_ ?_, hstep]
      · rw [layerStep_lns]
        split
        · exact (List.mem_erase_of_ne (fun h => hln h.symm)).mpr hn
        · exact hn
      · rw [layerStep_lns]
        split
        · exact hnd.erase l.name
        · exact hnd
      · intro m hm2
        apply hm m
        rw [layerStep_mns] at hm2
        split at hm2
        · exact List.mem_of_mem_erase hm2
        · exact hm2

theorem buildLoop_dict_mask (layers : List Layer) :
    ∀ (lns mns : List String) (d : DebugDict) (n : String),
      n ∈ mns → mns.Nodup → (∀ a ∈ lns, a ≠ "mask_for_" ++ n) →
      (buildLoop layers lns mns d).2.2 ("mask_for_" ++ n) =
        (match layers.find? (fun l => l.name == n) with
         | some l => some (DTensor.masked l.out)
         | none => d ("mask_for_" ++ n)) := by
  induction layers with
  | nil => intro lns mns d n _ _ _; rfl
  | cons l rest ih =>
    intro lns mns d n hn hnd hl
    rw [buildLoop_cons]
    by_cases hln : l.name = n
    · have hfind : (l :: rest).find? (fun l => l.name == n) = some l := by
        simp [List.find?_cons_of_pos, hln]
      rw [hfind]
      have hstep : (layerStep l lns mns d).2.2 ("mask_for_" ++ n) =
          some (DTensor.masked l.out) := by
        rw [layerStep_dict]
        rw [if_pos ⟨hln ▸ hn, by rw [hln]⟩]
      rw [buildLoop_dict_unchanged rest _ _ _ _ ?_ ?_, hstep]
      · intro a ha
        apply hl a
        rw [layerStep_lns] at ha
        split at ha
        · exact List.mem_of_mem_erase ha
        · exact ha
      · intro m hm2 hcontra
        have hmn : m = n := maskKey_inj hcontra
        rw [layerStep_mns] at hm2
        rw [if_pos (hln ▸ hn : l.name ∈ mns)] at hm2
        rw [hmn, ← hln] at hm2
        exact (List.Nodup.mem_erase_iff hnd).mp hm2 |>.1 rfl
    · have hfind : (l :: rest).find? (fun l => l.name == n) = rest.find? (fun l => l.name == n) := by
        simp [List.find?_cons_of_neg, hln]
      rw [hfind]
      have hstep : (layerStep l lns mns d).2.2 ("mask_for_" ++ n) = d ("mask_for_" ++ n) := by
        rw [layerStep_dict]
        split_ifs with c1 c2
        · exact absurd (maskKey_inj c1.2.symm) hln
        · exact absurd c2.2.symm (hl l.name c2.1)
        · rfl
      rw [ih _ _ _ n ?_ ?_ ?_, hstep]
      · rw [layerStep_mns]
        split
        · exact (List.mem_erase_of_ne (fun h => hln h.symm)).mpr hn
        · exact hn
      · rw [layerStep_mns]
        split
        · exact hnd.erase l.name
        · exact hnd
      · intro a ha
        apply hl a
        rw [layerStep_lns] at ha
        split at ha
        · exact List.mem_of_mem_erase ha
        · exact ha

theorem buildLoop_leftover_lns (layers : List Layer) :
    ∀ (lns mns : List String) (d : DebugDict) (n : String),
      n ∈ lns → (∀ l ∈ layers, (l.name == n) = false) →
      n ∈ (buildLoop layers lns mns d).1 := by
  induction layers with
  | nil => intro lns mns d n hn _; exact hn
  | cons l rest ih =>
    intro lns mns d n hn hall
    rw [buildLoop_cons]
    apply ih
    · rw [layerStep_lns]
      have hne : l.name ≠ n := by
        have := hall l (List.mem_cons_self l rest)
        simpa using this
      split
      · exact (List.mem_erase_of_ne (fun h => hne h.symm)).mpr hn
      · exact hn
    · intro l2 hl2
      exact hall l2 (List.mem_cons_of_mem l hl2)

theorem buildLoop_leftover_mns (layers : List Layer) :
    ∀ (lns mns : List String) (d : DebugDict) (n : String),
      n ∈ mns → (∀ l ∈ layers, (l.name == n) = false) →
      n ∈ (buildLoop layers lns mns d).2.1 := by
  induction layers with
  | nil => intro lns mns d n hn _; exact hn
  | cons l rest ih =>
    intro lns mns d n hn hall
    rw [buildLoop_cons]
    apply ih
    · rw [layerStep_mns]
      have hne : l.name ≠ n := by
        have := hall l (List.mem_cons_self l rest)
        simpa using this
      split
      · exact (List.mem_erase_of_ne (fun h => hne h.symm)).mpr hn
      · exact hn
    · intro l2 hl2
      exact hall l2 (List.mem_cons_of_mem l hl2)

theorem lookupAll_of_pointwise (d : DebugDict) (g : String → String) (f : String → DTensor) :
    ∀ ns : List String, (∀ n ∈ ns, d (g n) = some (f n)) →
      lookupAll d (ns.map g) = some (ns.map f) := by
  intro ns
  induction ns with
  | nil => intro _; rfl
  | cons n rest ih =>
    intro hall
    simp only [List.map_cons, lookupAll]
    rw [hall n (List.mem_cons_self n rest), ih (fun m hm => hall m (List.mem_cons_of_mem n hm))]

theorem except_bind_ok {α β : Type} {x : Except PyError α} {f : α → Except PyError β} {r : β}
    (h : (x >>= f) = Except.ok r) : ∃ a, x = Except.ok a ∧ f a = Except.ok r := by
  cases x with
  | error e => simp [Bind.bind, Except.bind] at h
  | ok a => exact ⟨a, rfl, by simpa [Bind.bind, Except.bind] using h⟩

theorem earlyStopStep_traces (cfg : TrainerConfig) (env : TrainEnv) (acc : ℚ) (e : Nat)
    (s : LoopState) :
    (earlyStopStep cfg env acc e s).1.fit_calls = s.fit_calls ∧
    (earlyStopStep cfg env acc e s).1.epochs_run = s.epochs_run ∧
    (earlyStopStep cfg env acc e s).1.debug_epochs = s.debug_epochs ∧
    (earlyStopStep cfg env acc e s).1.stopped_at = s.stopped_at := by
  unfold earlyStopStep saveModelStep
  split_ifs <;> exact ⟨rfl, rfl, rfl, rfl⟩

theorem epochBody_ok (cfg : TrainerConfig) (env : TrainEnv) (vdata : Option (Nat × Nat))
    (e : Nat) (s s2 : LoopState) (b : Bool)
    (h : epochBody cfg env vdata e s = Except.ok (s2, b)) :
    s2.fit_calls = s.fit_calls ++ [fitKwargs cfg vdata] ∧
    s2.epochs_run = s.epochs_run ++ [e] ∧
    (b = true → s2.debug_epochs = s.debug_epochs ∧ s2.stopped_at = some e) ∧
    (b = false → s2.stopped_at = s.stopped_at ∧
      (cfg.debug_params.isSome = true → s2.debug_epochs = s.debug_epochs ++ [e]) ∧
      (cfg.debug_params.isSome = false → s2.debug_epochs = s.debug_epochs)) := by
  unfold epochBody at h
  cases hacc : getAccuracy env cfg e with
  | error err => rw [hacc] at h; simp [Bind.bind, Except.bind] at h
  | ok acc =>
    rw [hacc] at h
    simp only [Bind.bind, Except.bind, pure, Except.pure] at h
    set s1 : LoopState :=
      { s with epochs_run := s.epochs_run ++ [e],
               fit_calls := s.fit_calls ++ [fitKwargs cfg vdata] } with hs1
    obtain ⟨hfc, hep, hdb, hst⟩ := earlyStopStep_traces cfg env acc e s1
    by_cases hb : (earlyStopStep cfg env acc e s1).2
    · rw [if_pos hb] at h
      have h2 : s2 = { (earlyStopStep cfg env acc e s1).1 with stopped_at := some e } ∧ b = true := by
        have := Except.ok.inj h
        exact ⟨(Prod.mk.injEq _ _ _ _ ▸ this).1.symm, (Prod.mk.injEq _ _ _ _ ▸ this).2.symm⟩
      obtain ⟨hs2, hbtrue⟩ := h2
      subst hs2
      refine ⟨by simpa using hfc, by simpa using hep, fun _ => ⟨by simpa using hdb, rfl⟩,
        fun hf => absurd hbtrue (by rw [hf]; simp)⟩
    · rw [if_neg hb] at h
      by_cases hd : cfg.debug_params.isSome
      · rw [if_pos hd] at h
        have := Except.ok.inj h
        have hs2 : s2 = { (earlyStopStep cfg env acc e s1).1 with
            debug_epochs := (earlyStopStep cfg env acc e s1).1.debug_epochs ++ [e] } :=
          (Prod.mk.injEq _ _ _ _ ▸ this).1.symm
        have hbf : b = false := (Prod.mk.injEq _ _ _ _ ▸ this).2.symm
        subst hs2
        refine ⟨by simpa using hfc, by simpa using hep,
          fun ht => absurd hbf (by rw [ht]; simp), fun _ => ?_⟩
        refine ⟨by simpa using hst, fun _ => by simp [hdb], fun hf => absurd hd (by rw [hf]; simp)⟩
      · rw [if_neg hd] at h
        have := Except.ok.inj h
        have hs2 : s2 = (earlyStopStep cfg env acc e s1).1 :=
          (Prod.mk.injEq _ _ _ _ ▸ this).1.symm
        have hbf : b = false := (Prod.mk.injEq _ _ _ _ ▸ this).2.symm
        subst hs2
        refine ⟨by simpa using hfc, by simpa using hep,
          fun ht => absurd hbf (by rw [ht]; simp), fun _ => ?_⟩
        refine ⟨by simpa using hst, fun ht => absurd ht (by simpa using hd), fun _ => by simp [hdb]⟩

theorem trainLoop_fit_calls (cfg : TrainerConfig) (env : TrainEnv) (vdata : Option (Nat × Nat)) :
    ∀ (fuel e : Nat) (s out : LoopState),
      trainLoop cfg env vdata fuel e s = Except.ok out →
      ∀ k ∈ out.fit_calls, k ∈ s.fit_calls ∨ k = fitKwargs cfg vdata := by
  intro fuel
  induction fuel with
  | zero =>
    intro e s out h k hk
    have : s = out := Except.ok.inj h
    subst this
    exact Or.inl hk
  | succ n ih =>
    intro e s out h k hk
    unfold trainLoop at h
    obtain ⟨⟨s2, b⟩, h1, h2⟩ := except_bind_ok h
    obtain ⟨hfc, -, -, -⟩ := epochBody_ok cfg env vdata e s s2 b h1
    cases b with
    | true =>
      have : s2 = out := Except.ok.inj h2
      subst this
      rw [hfc] at hk
      rcases List.mem_append.mp hk with hmem | hmem
      · exact Or.inl hmem
      · exact Or.inr (List.mem_singleton.mp hmem)
    | false =>
      rcases ih (e + 1) s2 out h2 k hk with hmem | heq
      · rw [hfc] at hmem
        rcases List.mem_append.mp hmem with hmem2 | hmem2
        · exact Or.inl hmem2
        · exact Or.inr (List.mem_singleton.mp hmem2)
      · exact Or.inr heq

theorem trainLoop_debug_trace (cfg : TrainerConfig) (env : TrainEnv) (vdata : Option (Nat × Nat))
    (hdbg : cfg.debug_params.isSome = true) :
    ∀ (fuel e : Nat) (s out : LoopState),
      trainLoop cfg env vdata fuel e s = Except.ok out →
      s.stopped_at = none → s.epochs_run = s.debug_epochs →
      out.epochs_run = out.debug_epochs ++ out.stopped_at.toList := by
  intro fuel
  induction fuel with
  | zero =>
    intro e s out h hstop hinv
    have : s = out := Except.ok.inj h
    subst this
    rw [hstop]
    simpa using hinv
  | succ n ih =>
    intro e s out h hstop hinv
    unfold trainLoop at h
    obtain ⟨⟨s2, b⟩, h1, h2⟩ := except_bind_ok h
    obtain ⟨-, hep, hdbt, hdbf⟩ := epochBody_ok cfg env vdata e s s2 b h1
    cases b with
    | true =>
      have : s2 = out := Except.ok.inj h2
      subst this
      obtain ⟨hdb, hst⟩ := hdbt rfl
      rw [hep, hdb, hst, hinv]
      rfl
    | false =>
      obtain ⟨hst, hdb, -⟩ := hdbf rfl
      exact ih (e + 1) s2 out h2 (hst.trans hstop) (by rw [hep, hdb hdbg, hinv])

theorem train_ok_elim (cfg : TrainerConfig) (env : TrainEnv) (fs0 : FS) (res : TrainResult)
    (h : train cfg env fs0 = Except.ok res) :
    ∃ vdata sEnd fsF,
      setupPhase cfg env = Except.ok vdata ∧
      trainLoop cfg env vdata cfg.num_epochs 0 (initLoopState fs0) = Except.ok sEnd ∧
      (if cfg.save_models then saveBestModel cfg sEnd.fs sEnd.best_epoch
       else Except.ok sEnd.fs) = Except.ok fsF ∧
      res = mkResult vdata sEnd fsF := by
  unfold train at h
  obtain ⟨vd, h1, h2⟩ := except_bind_ok h
  obtain ⟨sE, h3, h4⟩ := except_bind_ok h2
  obtain ⟨fsF, h5, h6⟩ := except_bind_ok h4
  refine ⟨vd, sE, fsF, h1, h3, ?_, ?_⟩
  · simpa [pure, Except.pure] using h5
  · have h7 : (Except.ok (mkResult vd sE fsF) : Except PyError TrainResult) = Except.ok res := h6
    exact (Except.ok.inj h7).symm

/-! Concrete configurations, environments and data used to evaluate the
embedding on the spec's worked examples. -/

/-- A baseline configuration: the constructor defaults of trainer.py lines
35-86 with `train_files` supplied and `save_models` off (variations are
taken with structure updates). -/
def cfgBase : TrainerConfig :=
  { save_models := false
    model_pfx := none
    max_training_instances := none
    keras_validation_split := tenth
    num_epochs := 20
    patience := 1
    train_files := some []
    validation_files := none
    optimizer := "adam"
    loss := "categorical_crossentropy"
    metrics := ["accuracy"]
    validation_metric := "val_acc"
    show_summary_with_masking := false
    debug_params := none
    pretrainers := [] }

/-- The synthetic validation-metric history `[0.5, 0.4, 0.3, 0.3, ...]` of
the spec's early-stopping example. -/
def mSeq : Nat → ℚ
  | 0 => half
  | 1 => twoFifths
  | _ => threeTenths

/-- A concrete collaborator environment: loaders and preparers that accept
anything, a model with layers `A` and `B`, and a `fit` whose history exposes
`val_acc` with the synthetic metric sequence. -/
def envBase : TrainEnv :=
  { loadDataset := fun _ => Except.ok 0
    truncate := fun d _ => d
    prepareData := fun _ _ => Except.ok (0, 0)
    modelLayers := [⟨"A", 1⟩, ⟨"B", 2⟩]
    modelJson := 9
    history := fun e s => if s = "val_acc" then some [mSeq e] else none
    fitWeights := fun e => 100 + e }

/-- The behaviour of the abstract base class: `_load_dataset_from_files`
raises `NotImplementedError` (trainer.py line 125). -/
def envNotImpl : TrainEnv :=
  { envBase with loadDataset := fun _ => Except.error PyError.notImplementedError }

/-- A mid-training loop state whose best value so far is `0.5`. -/
def sW : LoopState := { initLoopState fsEmpty with best_accuracy := half }

/-- Model layers for the debug-model examples. -/
def layersW : List Layer := [⟨"A", 1⟩, ⟨"B", 2⟩]

/-- Model layers exhibiting the string-key collision of the debug dict: a
layer literally named `mask_for_A` next to a layer named `A`. -/
def layersCollide : List Layer := [⟨"mask_for_A", 1⟩, ⟨"A", 2⟩]

/-- Constructor parameters with `save_models=True` and no serialization
prefix supplied. -/
def paramsNoPfx : Params := { save_models := some true }

/-- Configuration with the training file set missing (`None`). -/
def cfgNoTrainFiles : TrainerConfig := { cfgBase with train_files := none }

/-- Configuration requesting a debug layer name that no model layer has. -/
def cfgBadDebugName : TrainerConfig :=
  { cfgBase with debug_params := some { layer_names := ["nonexistent"], data := DebugData.training } }

/-- Configuration with a resolvable debug spec. -/
def cfgDbg : TrainerConfig :=
  { cfgBase with debug_params := some { layer_names := ["A"], data := DebugData.training } }

/-- Configuration with persistence on, a prefix, and one epoch. -/
def cfgSave : TrainerConfig :=
  { cfgBase with save_models := true, model_pfx := some ("m"), num_epochs := 1 }

/-- Configuration with one epoch and no explicit validation data. -/
def cfgOneEpoch : TrainerConfig := { cfgBase with num_epochs := 1 }

/-- Configuration with persistence on and `num_epochs = 0`. -/
def cfgZeroEpochs : TrainerConfig :=
  { cfgBase with save_models := true, model_pfx := some ("m"), num_epochs := 0 }

/-- Trace extractor: the recorded fit calls of a finished run. -/
def resultFitCalls : Except PyError TrainResult → List FitKwargs
  | Except.ok r => r.fit_calls
  | Except.error _ => []

/-- Trace extractor: the validation data of a finished run. -/
def resultVData : Except PyError TrainResult → Option (Nat × Nat)
  | Except.ok r => r.validation_data
  | Except.error _ => none

/-! Claim theorems. -/

/-- Claim C1: in every epoch of the training loop, a metric value strictly
below the best seen so far (best initialized to 0.0) increments the
consecutive-worse-epoch counter, and the loop's break fires exactly when
that counter reaches `patience`; otherwise (value greater than or equal to
best, ties counting as improvement) the best value becomes the current
value, `best_epoch` becomes the current epoch, the counter resets to 0, and
the epoch's weights are checkpointed exactly when `save_models` is true. -/
theorem early_stopping_step_policy (cfg : TrainerConfig) (env : TrainEnv) (acc : ℚ)
    (e : Nat) (s : LoopState) (fs0 : FS) :
    ((initLoopState fs0).best_accuracy = 0 ∧ (initLoopState fs0).best_epoch = 0 ∧
     (initLoopState fs0).num_worse_epochs = 0) ∧
    (acc < s.best_accuracy →
      (earlyStopStep cfg env acc e s).1.num_worse_epochs = s.num_worse_epochs + 1 ∧
      (earlyStopStep cfg env acc e s).1.best_accuracy = s.best_accuracy ∧
      (earlyStopStep cfg env acc e s).1.best_epoch = s.best_epoch ∧
      (earlyStopStep cfg env acc e s).1.saved_epochs = s.saved_epochs ∧
      ((earlyStopStep cfg env acc e s).2 = true ↔ cfg.patience ≤ s.num_worse_epochs + 1)) ∧
    (s.best_accuracy ≤ acc →
      (earlyStopStep cfg env acc e s).1.best_accuracy = acc ∧
      (earlyStopStep cfg env acc e s).1.best_epoch = e ∧
      (earlyStopStep cfg env acc e s).1.num_worse_epochs = 0 ∧
      (earlyStopStep cfg env acc e s).2 = false ∧
      (cfg.save_models = true →
        (earlyStopStep cfg env acc e s).1.saved_epochs = s.saved_epochs ++ [e]) ∧
      (cfg.save_models = false →
        (earlyStopStep cfg env acc e s).1.saved_epochs = s.saved_epochs)) := by
  refine ⟨⟨rfl, rfl, rfl⟩, fun hlt => ?_, fun hge => ?_⟩
  · unfold earlyStopStep
    rw [if_pos hlt]
    exact ⟨rfl, rfl, rfl, rfl, by simp⟩
  · unfold earlyStopStep
    rw [if_neg (not_lt.mpr hge)]
    split_ifs with hsv
    · exact ⟨rfl, rfl, rfl, rfl, fun _ => rfl,
        fun hf => by rw [hf] at hsv; exact absurd hsv (by simp)⟩
    · exact ⟨rfl, rfl, rfl, rfl, fun ht => absurd ht hsv, fun _ => rfl⟩

/-- Claim C1 witness: at `patience = 1` and best value `0.5`, the metric
value `0.4` increments the counter to 1 and fires the break, while the tying
value `0.5` makes this epoch the best epoch and resets the counter. -/
theorem early_stopping_step_policy_witness :
    (earlyStopStep cfgBase envBase twoFifths 1 sW).1.num_worse_epochs = 1 ∧
    (earlyStopStep cfgBase envBase twoFifths 1 sW).2 = true ∧
    (earlyStopStep cfgBase envBase half 1 sW).1.best_epoch = 1 ∧
    (earlyStopStep cfgBase envBase half 1 sW).1.num_worse_epochs = 0 := by
  obtain ⟨-, hworse, -⟩ := early_stopping_step_policy cfgBase envBase twoFifths 1 sW fsEmpty
  obtain ⟨h1, -, -, -, h5⟩ := hworse (by decide)
  obtain ⟨-, -, himp⟩ := early_stopping_step_policy cfgBase envBase half 1 sW fsEmpty
  obtain ⟨-, h3, h4, -⟩ := himp (by decide)
  exact ⟨h1, h5.mpr (by decide), h3, h4⟩

/-- Claim C2: with per-epoch metric values `[0.5, 0.4, 0.3, ...]`, `train()`
at `patience = 1` fits exactly epochs 0 and 1, stops at epoch 1, and ends
with `best_epoch = 0`; at `patience = 2` it fits exactly epochs 0, 1 and 2,
stops at epoch 2, and ends with `best_epoch = 0`. -/
theorem train_early_stopping_examples :
    (train cfgBase envBase fsEmpty).map (fun r => (r.epochs_run, r.best_epoch, r.stopped_at)) =
      Except.ok ([0, 1], 0, some 1) ∧
    (train { cfgBase with patience := 2 } envBase fsEmpty).map
      (fun r => (r.epochs_run, r.best_epoch, r.stopped_at)) =
      Except.ok ([0, 1, 2], 0, some 2) :=
  ⟨rfl, rfl⟩

/-- Claim C3 counterexample: constructing a Trainer with `save_models=True`
and no `model_serialization_prefix` does not raise any error at construction
time — `Trainer.__init__` succeeds. -/
theorem trainer_init_accepts_save_models_without_pfx :
    ∃ cfg, trainerInit paramsNoPfx = Except.ok cfg ∧ cfg.save_models = true ∧
      cfg.model_pfx = none :=
  ⟨_, rfl, rfl, rfl⟩

/-- Claim C3 amended: the only construction-time `ConfigurationError` in
`Trainer.__init__` is the unrecognized-parameter check; in particular a
configuration with `save_models=True` and no serialization prefix is
accepted, and the missing prefix can only surface later (the docstring
itself merely warns that "the code will crash"). -/
theorem trainer_init_error_iff_unrecognized (p : Params) :
    (∃ e, trainerInit p = Except.error e) ↔ p.extra_keys ≠ [] := by
  unfold trainerInit
  constructor
  · rintro ⟨e, he⟩ hnil
    have h0 : p.extra_keys.length = 0 := by rw [hnil]; rfl
    rw [if_neg (by simp [h0])] at he
    exact Except.noConfusion he
  · intro hne
    have hlen : p.extra_keys.length ≠ 0 := by
      simpa [List.length_eq_zero] using hne
    exact ⟨PyError.configurationError, by rw [if_pos hlen]⟩

/-- Claim C3 amended witness: a parameter dict with one unrecognized key is
rejected, while `paramsNoPfx` (save_models without a prefix) is not. -/
theorem trainer_init_error_iff_unrecognized_witness :
    (∃ e, trainerInit { extra_keys := ["unknown_param"] } = Except.error e) ∧
    ¬ ∃ e, trainerInit paramsNoPfx = Except.error e :=
  ⟨(trainer_init_error_iff_unrecognized { extra_keys := ["unknown_param"] }).mpr (by decide),
   fun h => absurd ((trainer_init_error_iff_unrecognized paramsNoPfx).mp h) (by decide)⟩

/-- Claim C4 counterexample: `train()` performs no check on `train_files`.
With `train_files = None`, `can_train()` is false, yet a run whose loader
accepts `None` completes with no error at all, and under the base class's
abstract loader the error that propagates is `NotImplementedError`, not
`ConfigurationError`. -/
theorem train_missing_train_files_no_config_error_cex :
    can_train cfgNoTrainFiles = false ∧
    (train cfgNoTrainFiles envBase fsEmpty).isOk = true ∧
    train cfgNoTrainFiles envNotImpl fsEmpty = Except.error PyError.notImplementedError :=
  ⟨rfl, rfl, rfl⟩

/-- Claim C4 amended: `train()` never raises a `ConfigurationError` for a
missing training file set; it hands the `None` value straight to the
dataset loader and propagates whatever that collaborator does.  The
`can_train()` predicate reports the missing file set but is not consulted
by `train()`. -/
theorem train_propagates_loader_error (cfg : TrainerConfig) (env : TrainEnv) (fs0 : FS)
    (e : PyError) (h1 : cfg.train_files = none)
    (h2 : env.loadDataset none = Except.error e) :
    can_train cfg = false ∧ train cfg env fs0 = Except.error e := by
  constructor
  · rw [can_train, h1]
    rfl
  · unfold train setupPhase
    rw [h1, h2]
    rfl

/-- Claim C4 amended witness: under the abstract base loader, the error
propagated out of `train()` with missing train files is its
`NotImplementedError`. -/
theorem train_propagates_loader_error_witness :
    can_train cfgNoTrainFiles = false ∧
    train cfgNoTrainFiles envNotImpl fsEmpty = Except.error PyError.notImplementedError :=
  train_propagates_loader_error cfgNoTrainFiles envNotImpl fsEmpty
    PyError.notImplementedError rfl rfl

/-- Claim C5 (code bug evaluated at the failing input): requesting a debug
layer name that resolves to no layer does abort before any fit call, but
with a `TypeError`, not the intended `ConfigurationError`: line 380 of
trainer.py evaluates `layer_names + mask_names` on two Python sets while
formatting the error message, and `set + set` is unsupported. -/
theorem debug_unmatched_name_raises_typeerror :
    build_debug_model [⟨"A", 0⟩] ["nonexistent"] [] = Except.error PyError.typeError ∧
    train cfgBadDebugName envBase fsEmpty = Except.error PyError.typeError :=
  ⟨rfl, rfl⟩

/-- Claim C6 counterexample: with a layer literally named `mask_for_A` next
to a layer named `A`, the request `layer_names=[mask_for_A]`,
`masks=[A]` resolves fully, yet the single string-keyed debug dict makes the
two requests collide: the model's outputs are `[masked A, masked A]` instead
of `[output of layer mask_for_A, masked A]`. -/
theorem build_debug_model_collision_cex :
    build_debug_model layersCollide ["mask_for_A"] ["A"] =
      Except.ok [DTensor.masked 2, DTensor.masked 2] ∧
    [DTensor.masked 2, DTensor.masked 2] ≠
      ((["mask_for_A"].map fun n => DTensor.raw (layerOut layersCollide n)) ++
       (["A"].map fun n => DTensor.masked (layerOut layersCollide n))) :=
  ⟨rfl, by decide⟩

/-- Claim C6 amended: when the debug model builds successfully and no
requested layer name textually equals `'mask_for_' +` a requested mask name
(the key collision of the shared output dict), the outputs are exactly one
tensor per name in `layer_names` — the output of the first layer with that
name — in the order of `layer_names`, followed by exactly one mask tensor
per name in `masks`, in the order of `masks`. -/
theorem build_debug_model_ordered_outputs (layers : List Layer)
    (names masks : List String) (outs : List DTensor)
    (hcol : ∀ n ∈ names, ∀ m ∈ masks, n ≠ "mask_for_" ++ m)
    (h : build_debug_model layers names masks = Except.ok outs) :
    outs = (names.map fun n => DTensor.raw (layerOut layers n)) ++
           (masks.map fun n => DTensor.masked (layerOut layers n)) := by
  unfold build_debug_model at h
  set r := buildLoop layers names.dedup masks.dedup (fun _ => none) with hr
  by_cases hif : r.1.length ≠ 0 ∨ r.2.1.length ≠ 0
  · rw [if_pos hif] at h
    exact absurd h (by simp)
  · rw [if_neg hif] at h
    push_neg at hif
    have hlns : r.1 = [] := List.length_eq_zero.mp hif.1
    have hmns : r.2.1 = [] := List.length_eq_zero.mp hif.2
    have hfound : ∀ n ∈ names, ∃ l, layers.find? (fun l => l.name == n) = some l := by
      intro n hn
      cases hf : layers.find? (fun l => l.name == n) with
      | some l => exact ⟨l, rfl⟩
      | none =>
        have := buildLoop_leftover_lns layers names.dedup masks.dedup (fun _ => none) n
          (List.mem_dedup.mpr hn) (fun l hl => by
            have := List.find?_eq_none.mp hf l hl
            simpa using this)
        rw [← hr, hlns] at this
        exact absurd this (List.not_mem_nil n)
    have hfoundm : ∀ n ∈ masks, ∃ l, layers.find? (fun l => l.name == n) = some l := by
      intro n hn
      cases hf : layers.find? (fun l => l.name == n) with
      | some l => exact ⟨l, rfl⟩
      | none =>
        have := buildLoop_leftover_mns layers names.dedup masks.dedup (fun _ => none) n
          (List.mem_dedup.mpr hn) (fun l hl => by
            have := List.find?_eq_none.mp hf l hl
            simpa using this)
        rw [← hr, hmns] at this
        exact absurd this (List.not_mem_nil n)
    have hdictL : ∀ n ∈ names, r.2.2 n = some (DTensor.raw (layerOut layers n)) := by
      intro n hn
      obtain ⟨l, hl⟩ := hfound n hn
      have := buildLoop_dict_raw layers names.dedup masks.dedup (fun _ => none) n
        (List.mem_dedup.mpr hn) names.nodup_dedup
        (fun m hm => Ne.symm (hcol n hn m (List.mem_dedup.mp hm)))
      rw [← hr] at this
      rw [this, hl, layerOut, hl]
    have hdictM : ∀ n ∈ masks, r.2.2 ("mask_for_" ++ n) =
        some (DTensor.masked (layerOut layers n)) := by
      intro n hn
      obtain ⟨l, hl⟩ := hfoundm n hn
      have := buildLoop_dict_mask layers names.dedup masks.dedup (fun _ => none) n
        (List.mem_dedup.mpr hn) masks.nodup_dedup
        (fun a ha => hcol a (List.mem_dedup.mp ha) n hn)
      rw [← hr] at this
      rw [this, hl, layerOut, hl]
    have hlk1 : lookupAll r.2.2 names =
        some (names.map fun n => DTensor.raw (layerOut layers n)) := by
      have := lookupAll_of_pointwise r.2.2 (fun n => n)
        (fun n => DTensor.raw (layerOut layers n)) names hdictL
      simpa using this
    have hlk2 : lookupAll r.2.2 (masks.map fun n => "mask_for_" ++ n) =
        some (masks.map fun n => DTensor.masked (layerOut layers n)) :=
      lookupAll_of_pointwise r.2.2 (fun n => "mask_for_" ++ n)
        (fun n => DTensor.masked (layerOut layers n)) masks hdictM
    rw [hlk1, hlk2] at h
    exact (Except.ok.injEq _ _ ▸ h).symm

/-- Claim C6 amended witness: on a model with layers `A` and `B`, requesting
`layer_names=[A, B]` and `masks=[A]` yields exactly the outputs of `A` and
`B` in order followed by the mask of `A`. -/
theorem build_debug_model_ordered_outputs_witness :
    build_debug_model layersW ["A", "B"] ["A"] =
      Except.ok ((["A", "B"].map fun n => DTensor.raw (layerOut layersW n)) ++
        (["A"].map fun n => DTensor.masked (layerOut layersW n))) := by
  have h : build_debug_model layersW ["A", "B"] ["A"] =
      Except.ok [DTensor.raw 1, DTensor.raw 2, DTensor.masked 1] := rfl
  rw [h]
  exact congrArg Except.ok (build_debug_model_ordered_outputs layersW ["A", "B"] ["A"]
    [DTensor.raw 1, DTensor.raw 2, DTensor.masked 1] (by decide) h)

/-- Claim C7 counterexample: with a debug spec present and `patience = 1`
over the metric history `[0.5, 0.4, ...]`, epoch 1 is executed (it is
fitted) but triggers the patience break, and the `break` exits the loop
before the debug call at the end of the loop body: no debug report is
emitted for epoch 1. -/
theorem train_debug_skipped_on_stop_epoch_cex :
    (train cfgDbg envBase fsEmpty).map
      (fun r => (decide (1 ∈ r.epochs_run), decide (1 ∈ r.debug_epochs))) =
      Except.ok (true, false) :=
  rfl

/-- Claim C7 amended: when a debug spec is present, the debug extraction
runs and its report is emitted for every executed epoch except the one that
triggers the patience break (whether or not the epoch improved); on the
break epoch the loop exits before the debug call, so the executed epochs
are exactly the debug-reported epochs followed by the breaking epoch when
early stopping fired. -/
theorem train_debug_runs_every_nonstopping_epoch (cfg : TrainerConfig) (env : TrainEnv)
    (fs0 : FS) (res : TrainResult)
    (h : train cfg env fs0 = Except.ok res) (hdbg : cfg.debug_params.isSome = true) :
    res.epochs_run = res.debug_epochs ++ res.stopped_at.toList := by
  obtain ⟨vd, sE, fsF, h1, h2, h3, h4⟩ := train_ok_elim cfg env fs0 res h
  subst h4
  simpa [mkResult] using
    trainLoop_debug_trace cfg env vd hdbg cfg.num_epochs 0 (initLoopState fs0) sE h2 rfl rfl

/-- Claim C7 amended witness: a run with a debug spec and the synthetic
metric history satisfies the executed-equals-debugged-plus-break-epoch
decomposition. -/
theorem train_debug_runs_every_nonstopping_epoch_witness :
    ∃ res, train cfgDbg envBase fsEmpty = Except.ok res ∧
      res.epochs_run = res.debug_epochs ++ res.stopped_at.toList :=
  ⟨_, rfl, train_debug_runs_every_nonstopping_epoch cfgDbg envBase fsEmpty _ rfl rfl⟩

/-- Claim C8: whenever `train()` completes with `save_models` on, the
final weight file `<prefix>_weights.h5` holds exactly the blob of the
epoch-qualified weight file `<prefix>_weights_epoch=<best_epoch>.h5`
(the copy performed by `_save_best_model` after the loop), and that file
exists. -/
theorem train_final_weights_eq_best_epoch_file (cfg : TrainerConfig) (env : TrainEnv)
    (fs0 : FS) (res : TrainResult)
    (h : train cfg env fs0 = Except.ok res) (hs : cfg.save_models = true) :
    res.fs (FsPath.weightsFinal (pfxStr cfg.model_pfx)) =
      res.fs (FsPath.weightsEpoch (pfxStr cfg.model_pfx) res.best_epoch) ∧
    (res.fs (FsPath.weightsFinal (pfxStr cfg.model_pfx))).isSome = true := by
  obtain ⟨vd, sE, fsF, h1, h2, h3, h4⟩ := train_ok_elim cfg env fs0 res h
  rw [hs] at h3
  rw [if_pos rfl] at h3
  unfold saveBestModel at h3
  cases hlook : sE.fs (FsPath.weightsEpoch (pfxStr cfg.model_pfx) sE.best_epoch) with
  | none => rw [hlook] at h3; cases h3
  | some blob =>
    rw [hlook] at h3
    have hf : fsF = fsUpdate sE.fs (FsPath.weightsFinal (pfxStr cfg.model_pfx)) blob :=
      (Except.ok.inj h3).symm
    subst h4
    simp only [mkResult, hf, fsUpdate]
    constructor
    · rw [if_pos trivial, if_neg (fun hcon => FsPath.noConfusion hcon)]
      exact hlook.symm
    · rw [if_pos trivial]
      rfl

/-- Claim C8 witness: a one-epoch run with persistence on satisfies the
final-equals-best-epoch-file property. -/
theorem train_final_weights_eq_best_epoch_file_witness :
    ∃ res, train cfgSave envBase fsEmpty = Except.ok res ∧
      (res.fs (FsPath.weightsFinal (pfxStr cfgSave.model_pfx)) =
        res.fs (FsPath.weightsEpoch (pfxStr cfgSave.model_pfx) res.best_epoch) ∧
       (res.fs (FsPath.weightsFinal (pfxStr cfgSave.model_pfx))).isSome = true) :=
  ⟨_, rfl, train_final_weights_eq_best_epoch_file cfgSave envBase fsEmpty _ rfl rfl⟩

/-- Claim C9: every fit call of the epoch loop has `nb_epoch = 1`; it gets
the explicit validation tensors (and no split) when validation input is
present, the fractional `keras_validation_split` when absent and the split
is strictly positive, and neither otherwise. -/
theorem train_fit_kwargs_policy (cfg : TrainerConfig) (env : TrainEnv) (fs0 : FS)
    (res : TrainResult) (k : FitKwargs)
    (h : train cfg env fs0 = Except.ok res) (hk : k ∈ res.fit_calls) :
    k.nb_epoch = 1 ∧
    (∀ v, res.validation_data = some v →
      k.validation_data = some v ∧ k.validation_split = none) ∧
    (res.validation_data = none → 0 < cfg.keras_validation_split →
      k.validation_data = none ∧ k.validation_split = some cfg.keras_validation_split) ∧
    (res.validation_data = none → ¬ 0 < cfg.keras_validation_split →
      k.validation_data = none ∧ k.validation_split = none) := by
  obtain ⟨vd, sE, fsF, h1, h2, h3, h4⟩ := train_ok_elim cfg env fs0 res h
  subst h4
  have hkk : k = fitKwargs cfg vd := by
    rcases trainLoop_fit_calls cfg env vd cfg.num_epochs 0 (initLoopState fs0) sE h2 k
      (by simpa [mkResult] using hk) with hmem | heq
    · exact absurd hmem (List.not_mem_nil k)
    · exact heq
  subst hkk
  simp only [mkResult]
  cases vd with
  | some v =>
    refine ⟨rfl, ?_, ?_, ?_⟩
    · intro w hw
      have hvw : v = w := Option.some.inj hw
      subst hvw
      exact ⟨rfl, rfl⟩
    · intro hn
      exact absurd hn (by simp)
    · intro hn
      exact absurd hn (by simp)
  | none =>
    by_cases hpos : 0 < cfg.keras_validation_split
    · refine ⟨?_, ?_, ?_, ?_⟩
      · simp [fitKwargs, hpos]
      · intro w hw
        exact absurd hw (by simp)
      · intro _ _
        simp [fitKwargs, hpos]
      · intro _ hnp
        exact absurd hpos hnp
    · refine ⟨?_, ?_, ?_, ?_⟩
      · simp [fitKwargs, hpos]
      · intro w hw
        exact absurd hw (by simp)
      · intro _ hp
        exact absurd hp hpos
      · intro _ _
        simp [fitKwargs, hpos]

/-- Claim C9 witness: a run with no explicit validation data and the default
positive split makes a fit call with `nb_epoch = 1`, no validation data,
and `validation_split = keras_validation_split`. -/
theorem train_fit_kwargs_policy_witness :
    ∃ res, train cfgOneEpoch envBase fsEmpty = Except.ok res ∧
      ∃ k, k ∈ res.fit_calls ∧ k.nb_epoch = 1 ∧ k.validation_data = none ∧
        k.validation_split = some cfgOneEpoch.keras_validation_split := by
  obtain ⟨res, hres⟩ : ∃ res, train cfgOneEpoch envBase fsEmpty = Except.ok res := ⟨_, rfl⟩
  have hfc : res.fit_calls =
      [{ nb_epoch := 1, validation_data := none, validation_split := some tenth }] :=
    (congrArg resultFitCalls hres).symm
  have hmem : ({ nb_epoch := 1
                 validation_data := none
                 validation_split := some tenth } : FitKwargs) ∈ res.fit_calls := by
    rw [hfc]
    exact List.mem_singleton_self _
  have hvd : res.validation_data = none := (congrArg resultVData hres).symm
  have hmain := train_fit_kwargs_policy cfgOneEpoch envBase fsEmpty res _ hres hmem
  exact ⟨res, hres, _, hmem, hmain.1, (hmain.2.2.1 hvd (by decide)).1,
    (hmain.2.2.1 hvd (by decide)).2⟩

/-- Claim C10: with `num_epochs = 0` and `save_models` on, the epoch loop is
skipped (the entry state has `best_epoch = 0` and nothing checkpointed), yet
`train()` still invokes the best-checkpoint copy with `best_epoch = 0` and
fails with `FileNotFoundError` because the epoch-0 weight file was never
written: the final copy is reachable with its source checkpoint missing. -/
theorem train_zero_epochs_missing_checkpoint (cfg : TrainerConfig) (env : TrainEnv)
    (fs0 : FS) (d : Nat) (q : Nat × Nat)
    (h0 : cfg.num_epochs = 0) (hs : cfg.save_models = true)
    (hdbg : cfg.debug_params = none) (hvf : cfg.validation_files = none)
    (hmax : cfg.max_training_instances = none)
    (hld : env.loadDataset cfg.train_files = Except.ok d)
    (hpd : env.prepareData d true = Except.ok q)
    (hfs : fs0 (FsPath.weightsEpoch (pfxStr cfg.model_pfx) 0) = none) :
    (initLoopState fs0).best_epoch = 0 ∧ (initLoopState fs0).saved_epochs = [] ∧
    train cfg env fs0 = Except.error PyError.fileNotFoundError := by
  refine ⟨rfl, rfl, ?_⟩
  unfold train setupPhase getVData debugSetup
  rw [hld, hmax, hvf, hdbg, h0, hs]
  simp only [Bind.bind, Except.bind, pure, Except.pure, hpd, trainLoop]
  unfold saveBestModel
  simp only [initLoopState, hfs]
  rfl

/-- Claim C10 witness: the concrete zero-epoch run with persistence on and
an empty file system fails with `FileNotFoundError`. -/
theorem train_zero_epochs_missing_checkpoint_witness :
    (initLoopState fsEmpty).best_epoch = 0 ∧ (initLoopState fsEmpty).saved_epochs = [] ∧
    train cfgZeroEpochs envBase fsEmpty = Except.error PyError.fileNotFoundError :=
  train_zero_epochs_missing_checkpoint cfgZeroEpochs envBase fsEmpty 0 (0, 0)
    rfl rfl rfl rfl rfl rfl rfl rfl

end DeepQA
